import Mathlib

/-!
Verification of the WebUI-API accessor library (MMRLApp/WebUI-API).

The library is a set of accessor classes that let web content inside a host
WebView call native capabilities injected on the global object: file I/O,
toasts, config persistence, and build/version metadata.  This file embeds the
relevant parts of the TypeScript source shallowly:

* pure string manipulation (`AccessorScope`) becomes plain Lean functions on
  `String`/`List Char`;
* accessor methods become functions from an explicit environment (the state of
  the browsing context: whether the user agent is recognized as MMRL, the
  host-reported version code, the optional host interface object) to a result
  paired with the observable effects (host calls performed, console warnings);
* JS exceptions become `Except`;
* the chunked streaming read (`SuFile.fetch`) becomes a pure chunk driver plus
  a small-step event machine over the stream/handle state.

`MMRLObjectAccessor.ts` (the shared base class) and `Const.ts` are not among
the provided source files; the definitions derived from them are marked
"Modelled from the spec" and follow the wording of the specification.
-/

/-- A JavaScript runtime value, as far as the accessors inspect one with
`typeof` checks.  Numbers are modelled as integers (the toast accessor only
compares them against the integer constants 0 and 1). -/
inductive JSValue where
  | str (s : String)
  | num (n : Int)
  | bool (b : Bool)
  | null
  | undef
deriving DecidableEq, Repr

/-- `typeof v === "string"`. -/
def JSValue.isStr : JSValue → Bool
  | .str _ => true
  | _ => false

/-- `typeof v === "number"`. -/
def JSValue.isNum : JSValue → Bool
  | .num _ => true
  | _ => false

/-- A JavaScript exception, by constructor and message. -/
inductive JsErr where
  | typeError (msg : String)
  | error (msg : String)
  | referenceError (msg : String)
deriving DecidableEq, Repr

/-- The observable outcome of one accessor call: its return value, the console
warnings it printed, and the calls it performed on the host interface object
(identified by host-method name). -/
structure Eff (α : Type) where
  result : α
  warnings : List String
  hostCalls : List String
deriving DecidableEq, Repr

/-! ## AccessorScope (src/index.ts)

`sanitizeScope` is `scope.replace(/[-.]/g, "_")`: the regex engine scans the
string once and replaces every `-` or `.` occurrence; we embed that scan as a
character-by-character recursion. -/

namespace AccessorScope

/-- The per-character scan performed by `scope.replace(/[-.]/g, "_")`. -/
def replaceDashDot : List Char → List Char
  | [] => []
  | c :: cs => (if c = '-' ∨ c = '.' then '_' else c) :: replaceDashDot cs

/-- `AccessorScope.sanitizeScope(scope)`: `scope.replace(/[-.]/g, "_")`. -/
def sanitizeScope (scope : String) : String :=
  ⟨replaceDashDot scope.data⟩

/-- `AccessorScope.sanitizedModIdWithFile(scope)`: the first character of
the sanitized scope uppercased, plus its second character when present, followed by
`"File"`.  The source indexes `sanitized[0]`/`sanitized[1]` behind explicit
length tests; we match on the character list instead. -/
def sanitizedModIdWithFile (scope : String) : String :=
  (match (sanitizeScope scope).data with
    | a :: b :: _ => String.mk [a.toUpper, b]
    | [a] => String.mk [a.toUpper]
    | [] => "") ++ "File"

/-- The global name `parseFileScope` looks up for a string scope:
`window[` dollar + `sanitizedModIdWithFile(scope)` `]`. -/
def parseFileScopeName (scope : String) : String :=
  "$" ++ sanitizedModIdWithFile scope

/-- The primary global name `parseScope` looks up for a string scope:
`window[` dollar + `sanitizeScope(scope)` `]` (falling back to the
unsanitized name only when that lookup is `undefined`). -/
def parseScopeName (scope : String) : String :=
  "$" ++ sanitizeScope scope

end AccessorScope

/-! ## MMRLObjectAccessor base-class checks

`MMRLObjectAccessor.ts` is not among the provided source files; only its
callers are.  The two guards every accessor uses are modelled from the spec. -/

/-- Modelled from the spec: `MMRLObjectAccessor.isMMRL` (file not under the
provided sources).  The spec says the accessor "exposes whether the current
execution context is recognized as the expected host (by comparing a fixed
signature string)"; the same comparison appears verbatim in the provided
decorator source as
`Const.mmrlUserAgent === window.navigator.userAgent`. -/
def isMMRLCheck (mmrlUserAgent userAgent : String) : Bool :=
  mmrlUserAgent == userAgent

/-- Modelled from the spec: `MMRLObjectAccessor.hasRequiredVersion` (file not
under the provided sources).  The spec says version-gated methods "no-op (and
log a warning) when the host-reported version code is below the required
threshold, and operate normally at or above it"; the provided decorator source
performs the same comparison via
`access.getBuildConfig().getVersionCode() < requireVersion` and logs a
warning. -/
def hasRequiredVersion (versionCode required : Int) : Bool × List String :=
  if versionCode < required then
    (false, ["requires MMRL version " ++ toString required ++ " or higher!"])
  else
    (true, [])

/-! ## VersionInterface (src/classes/VersionInterface.ts) -/

/-- The host object returned by `window.mmrl.getBuildConfig()`, as a record of
pure results of its getters. -/
structure BuildConfig where
  getVersionCode : Int
  getVersionName : String
  getApplicationId : String
  isDevVersion : Bool
deriving DecidableEq, Repr

/-- The host object returned by `window.mmrl.getRootConfig()`. -/
structure RootConfig where
  getPlatform : String
  getVersionCode : Int
  getVersionName : String
deriving DecidableEq, Repr

/-- The host `window.mmrl` object. -/
structure MMRLHost where
  buildConfig : BuildConfig
  rootConfig : RootConfig
deriving DecidableEq, Repr

/-- The execution environment seen by `VersionInterface`: whether the user
agent is recognized as MMRL, and the optional `window.mmrl` host object the
constructor captured as `this.interface`. -/
structure VersionEnv where
  isMMRL : Bool
  iface : Option MMRLHost
deriving DecidableEq, Repr

namespace VersionInterface

/-- `VersionInterface.versionCode`: returns the `defaultNumber` sentinel `-1`
when the context is not MMRL or the host object is absent; otherwise forwards
`getBuildConfig().getVersionCode()`. -/
def versionCode (env : VersionEnv) : Eff Int :=
  if env.isMMRL = false then ⟨-1, [], []⟩
  else
    match env.iface with
    | none => ⟨-1, [], []⟩
    | some m => ⟨m.buildConfig.getVersionCode, [], ["getBuildConfig", "getVersionCode"]⟩

/-- `VersionInterface.versionName`: the `-1` sentinel (the field
`defaultString` of the source is in fact the number `-1`) or the host value. -/
def versionName (env : VersionEnv) : Eff JSValue :=
  if env.isMMRL = false then ⟨.num (-1), [], []⟩
  else
    match env.iface with
    | none => ⟨.num (-1), [], []⟩
    | some m =>
      ⟨.str m.buildConfig.getVersionName, [], ["getBuildConfig", "getVersionName"]⟩

/-- `VersionInterface.isDevVersion`: `false` when the host is unavailable. -/
def isDevVersion (env : VersionEnv) : Eff Bool :=
  if env.isMMRL = false then ⟨false, [], []⟩
  else
    match env.iface with
    | none => ⟨false, [], []⟩
    | some m => ⟨m.buildConfig.isDevVersion, [], ["getBuildConfig", "isDevVersion"]⟩

/-- `VersionInterface.rootVersionCode`: the `-1` sentinel or the host value. -/
def rootVersionCode (env : VersionEnv) : Eff Int :=
  if env.isMMRL = false then ⟨-1, [], []⟩
  else
    match env.iface with
    | none => ⟨-1, [], []⟩
    | some m => ⟨m.rootConfig.getVersionCode, [], ["getRootConfig", "getVersionCode"]⟩

end VersionInterface

/-! ## MMRLInterface (classes/MMRLInterface.ts, provided unnamed) -/

/-- The host interface object the `MMRLInterface` accessor wraps, as a record
of pure results of the getters the claims mention. -/
structure MMRLIfaceImpl where
  getHasAccessToFileSystem : Bool
  getHasAccessToAdvancedKernelSuAPI : Bool
  getWindowTopInset : Int
  getSdk : Int
deriving DecidableEq, Repr

/-- The environment seen by an `MMRLInterface` instance.  When the context is
not MMRL, the wrapped interface object is never dereferenced, so it is kept
alongside the flag; `versionCode` is the host-reported build version used by
`hasRequiredVersion`. -/
structure MMRLEnv where
  isMMRL : Bool
  versionCode : Int
  iface : MMRLIfaceImpl
deriving DecidableEq, Repr

namespace MMRLInterface

/-- `MMRLInterface.hasAccessToFileSystem`: `false` outside MMRL, otherwise the
host value. -/
def hasAccessToFileSystem (env : MMRLEnv) : Eff Bool :=
  if env.isMMRL = false then ⟨false, [], []⟩
  else ⟨env.iface.getHasAccessToFileSystem, [], ["getHasAccessToFileSystem"]⟩

/-- `MMRLInterface.hasAccessToAdvancedKernelSuAPI`: the source returns `true`
(not `false`) when the context is not MMRL, otherwise the host value. -/
def hasAccessToAdvancedKernelSuAPI (env : MMRLEnv) : Eff Bool :=
  if env.isMMRL = false then ⟨true, [], []⟩
  else ⟨env.iface.getHasAccessToAdvancedKernelSuAPI, [], ["getHasAccessToAdvancedKernelSuAPI"]⟩

/-- `MMRLInterface.windowTopInset`: `0` outside MMRL. -/
def windowTopInset (env : MMRLEnv) : Eff Int :=
  if env.isMMRL = false then ⟨0, [], []⟩
  else ⟨env.iface.getWindowTopInset, [], ["getWindowTopInset"]⟩

/-- `MMRLInterface.sdk`: `-1` outside MMRL. -/
def sdk (env : MMRLEnv) : Eff Int :=
  if env.isMMRL = false then ⟨-1, [], []⟩
  else ⟨env.iface.getSdk, [], ["getSdk"]⟩

/-- The version threshold `requireVersionNewAPIs` for the request methods. -/
def requireVersionNewAPIs : Int := 33045

/-- `MMRLInterface.requestAdvancedKernelSUAPI`: returns silently outside MMRL,
no-ops below version 33045 (the spec-modelled `hasRequiredVersion` logs the
warning), and otherwise forwards to the host. -/
def requestAdvancedKernelSUAPI (env : MMRLEnv) : Eff Unit :=
  if env.isMMRL = false then ⟨(), [], []⟩
  else
    let hv := hasRequiredVersion env.versionCode requireVersionNewAPIs
    if hv.1 = false then ⟨(), hv.2, []⟩
    else ⟨(), hv.2, ["requestAdvancedKernelSUAPI"]⟩

end MMRLInterface

/-! ## FileSystem (src/classes/FileSystem.ts)

The host filesystem interface methods may throw; each is an `Except`-valued
function.  The accessor methods guard on `isMMRL` (and, for the newer
operations, on the version threshold) and otherwise forward the call with no
try/catch of their own. -/

/-- The host filesystem interface object, as `Except`-valued functions (a host
call either returns a value or throws). -/
structure FsIface where
  read : String → Bool → Except String (Option String)
  size : String → Bool → Except String Int
  stat : String → Bool → Except String Int
  fsExists : String → Except String Bool
  isDirectory : String → Except String Bool
deriving Inhabited

/-- The environment seen by a `FileSystem` instance. -/
structure FsEnv where
  isMMRL : Bool
  versionCode : Int
  iface : FsIface
deriving Inhabited

namespace FileSystem

/-- The `advancedFsOperations` version threshold. -/
def advancedFsOperations : Int := 33162

/-- `FileSystem.read(path, bytes)`: `null` when the context is not MMRL,
otherwise the forwarded host call (whose exception, if any, propagates). -/
def read (env : FsEnv) (path : String) (bytes : Bool) :
    Eff (Except String (Option String)) :=
  if env.isMMRL = false then ⟨.ok none, [], []⟩
  else ⟨env.iface.read path bytes, [], ["read"]⟩

/-- `FileSystem.size(path, recursive)`: `0` when the context is not MMRL. -/
def size (env : FsEnv) (path : String) (recursive : Bool) :
    Eff (Except String Int) :=
  if env.isMMRL = false then ⟨.ok 0, [], []⟩
  else ⟨env.iface.size path recursive, [], ["size"]⟩

/-- `FileSystem.stat(path, total)`: `0` when the context is not MMRL. -/
def stat (env : FsEnv) (path : String) (total : Bool) :
    Eff (Except String Int) :=
  if env.isMMRL = false then ⟨.ok 0, [], []⟩
  else ⟨env.iface.stat path total, [], ["stat"]⟩

/-- `FileSystem.exists(path)`: `false` when the context is not MMRL. -/
def fsExists (env : FsEnv) (path : String) : Eff (Except String Bool) :=
  if env.isMMRL = false then ⟨.ok false, [], []⟩
  else ⟨env.iface.fsExists path, [], ["exists"]⟩

/-- The warning-and-default helper `FileSystem._unsupportedWarning(method)`:
logs that the method is not supported on this version and returns `false`. -/
def unsupportedWarning (method : String) : Bool × List String :=
  (false, [method ++ " is not supported on this version"])

/-- `FileSystem.isDirectory(path)`: `false` outside MMRL; below the
`advancedFsOperations` threshold it logs (both the spec-modelled
`hasRequiredVersion` warning and `_unsupportedWarning`) and returns `false`;
at or above the threshold it forwards the host call. -/
def isDirectory (env : FsEnv) (path : String) : Eff (Except String Bool) :=
  if env.isMMRL = false then ⟨.ok false, [], []⟩
  else
    let hv := hasRequiredVersion env.versionCode advancedFsOperations
    if hv.1 = false then
      let uw := unsupportedWarning "isDirectroy"
      ⟨.ok uw.1, hv.2 ++ uw.2, []⟩
    else ⟨env.iface.isDirectory path, hv.2, ["isDirectory"]⟩

end FileSystem

/-! ## SuFile and SuFileInputStream construction
(src/classes/SuFile.ts, src/classes/SuFileInputStream.ts)

Both constructors scan the keys of the global object for one matching the regular
expression pattern dollar, two word characters, `FileInputStream` (with the
`m` flag, so any line of a key may match). -/

/-- JS `\w`: ASCII letters, digits, underscore. -/
def isWordChar (c : Char) : Bool :=
  c.isAlphanum || c = '_'

/-- Whether one line matches `^\$(\w{2})FileInputStream$`. -/
def lineMatchesFileInputStream (l : List Char) : Bool :=
  match l with
  | '$' :: a :: b :: rest =>
    isWordChar a && isWordChar b && rest == "FileInputStream".data
  | _ => false

/-- Split a character list at every occurrence of a separator character;
always returns at least one group. -/
def splitOnChar (sep : Char) (cs : List Char) : List (List Char) :=
  match cs with
  | [] => [[]]
  | c :: rest =>
    let r := splitOnChar sep rest
    if c = sep then [] :: r
    else
      match r with
      | [] => [[c]]
      | g :: gs => (c :: g) :: gs

/-- Whether a global key matches `/^\$(\w{2})FileInputStream$/m` (the `m` flag
makes `^`/`$` match at embedded line breaks, so the key is tested line by
line). -/
def fileInputStreamKey (key : String) : Bool :=
  (splitOnChar (Char.ofNat 10) key.data).any fun line => lineMatchesFileInputStream line

/-- An abstract host stream handle returned by the host `open` call. -/
structure StreamHandle where
  id : Nat
deriving DecidableEq, Repr

/-- The global browsing context as the stream constructors see it: the keys of
`window`, and the host `open(path)` call of the file-stream interface found
under a key (returning the handle, or nothing — `null`/`undefined` — on
failure). -/
structure Window where
  keys : List String
  openStream : String → String → Option StreamHandle

namespace SuFileInputStream

/-- The `SuFileInputStream` constructor: finds the first global key matching
the file-input-stream pattern (throwing a `ReferenceError` when none does),
then calls the host `open(path)` on it (throwing an `Error` when that returns
nothing).  Exceptions propagate: nothing here catches. -/
def construct (w : Window) (path : String) : Except JsErr (String × StreamHandle) :=
  match w.keys.find? fileInputStreamKey with
  | none => .error (.referenceError "Unable to find a interface SuFileInputStream")
  | some k =>
    match w.openStream k path with
    | none => .error (.error "Failed to open file input stream")
    | some h => .ok (k, h)

end SuFileInputStream

namespace SuFile

/-- The `SuFile` constructor performs the same global-key lookup (against the
same `FileInputStream` pattern) and throws a `ReferenceError` when no key
matches; it does not open a stream. -/
def construct (w : Window) (_path : String) : Except JsErr String :=
  match w.keys.find? fileInputStreamKey with
  | none => .error (.referenceError "Unable to find a interface SuFile")
  | some k => .ok k

/-- `SuFile._try(fallback, fn, errorMsg)`: runs the host call, returning its
value on success and, when it throws, logging `errorMsg` and returning the
fallback instead.  The returned pair is (value, console-error log). -/
def tryCall {T : Type} (fallback : T) (fn : Except String T) (errorMsg : String) :
    T × List String :=
  match fn with
  | .ok v => (v, [])
  | .error _ => (fallback, [errorMsg])

/-- The host file interface object a constructed `SuFile` delegates to, as
`Except`-valued functions. -/
structure Iface where
  read : String → Except String (Option String)
  write : String → String → Except String Bool
  size : String → Bool → Except String Int
  fsExists : String → Except String Bool
  list : String → String → Except String String
deriving Inhabited

/-- `SuFile.read()`: `_try(null, () => iface.read(path), ...)`. -/
def read (iface : Iface) (path : String) : Option String × List String :=
  tryCall none (iface.read path) ("Error while reading from " ++ path)

/-- `SuFile.write(data)`: `_try(false, () => iface.write(path, data), ...)`. -/
def write (iface : Iface) (path data : String) : Bool × List String :=
  tryCall false (iface.write path data) ("Error while writing to " ++ path)

/-- `SuFile.size(recursive)`: `_try(0, () => iface.size(path, recursive), ...)`. -/
def size (iface : Iface) (path : String) (recursive : Bool) : Int × List String :=
  tryCall 0 (iface.size path recursive) ("Error while getting size of " ++ path)

/-- `SuFile.exists()`: `_try(false, () => iface.exists(path), ...)`. -/
def fsExists (iface : Iface) (path : String) : Bool × List String :=
  tryCall false (iface.fsExists path) ("Error while checking existence of " ++ path)

/-- `SuFile.list(delimiter)`: `_try("[]", () => iface.list(path, delimiter), ...)`. -/
def list (iface : Iface) (path delimiter : String) : String × List String :=
  tryCall "[]" (iface.list path delimiter) ("Error while listing " ++ path)

end SuFile

/-! ## The chunked streaming read (`SuFile.fetch`)

Two embeddings of the `ReadableStream` produced by `fetch`:

1. `pullChunks` — the pure chunk driver: the sequence of chunks the `pull`
   callback enqueues when the host `readChunk(C)` behaves as assumed by the
   spec (each call returns the next `min(C, remaining)` bytes of the file as a
   JSON byte array, then `null` at end of stream).  The JSON string round trip
   through `JSON.parse` is elided as the identity on byte arrays.

2. a small-step event machine recording the `close()` calls on the underlying
   `SuFileInputStream` handle across pulls, errors, consumer cancellation and
   abort-signal delivery. -/

/-- The chunks enqueued by successive `pull` calls: while bytes remain,
`readChunk` yields the next `min(C, remaining)` bytes and the callback
enqueues them (an empty chunk — only possible when `C = 0` — closes the
stream without enqueuing); at end of stream `readChunk` yields `null` and the
callback closes the stream. -/
def pullChunks : Nat → List Nat → List (List Nat)
  | _, [] => []
  | 0, _ :: _ => []
  | c + 1, b :: bs => ((b :: bs).take (c + 1)) :: pullChunks (c + 1) ((b :: bs).drop (c + 1))
termination_by _c l => l.length
decreasing_by
  simp only [List.length_drop, List.length_cons]
  omega

/-- The consumer-visible state of the `ReadableStream`. -/
inductive StreamSt where
  | readable
  | closed
  | errored
deriving DecidableEq, Repr

/-- The state of one execution of `SuFile.fetch` after the `Response` has been
produced: the bytes the host stream still holds, whether the handle has been
closed, how many times `close()` was invoked on it, whether the abort listener
is still registered, the stream state, the enqueued chunks, whether the abort
signal has fired, and how many `readChunk` calls were made (in total and after
the abort fired). -/
structure FetchSt where
  remaining : List Nat
  handleClosed : Bool
  closeCalls : Nat
  listenerOn : Bool
  stream : StreamSt
  chunks : List (List Nat)
  aborted : Bool
  readCalls : Nat
  readsAfterAbort : Nat
deriving DecidableEq, Repr

/-- The state right after `fetch` resolves the `Response` (signal provided and
not yet aborted): stream readable, handle open, abort listener registered. -/
def initFetch (file : List Nat) : FetchSt :=
  { remaining := file
    handleClosed := false
    closeCalls := 0
    listenerOn := true
    stream := .readable
    chunks := []
    aborted := false
    readCalls := 0
    readsAfterAbort := 0 }

/-- The `cleanup()` helper: removes the abort listener and calls
`input?.close()` — unconditionally, even when the handle was already closed
(its internal try/catch only swallows an exception the host `close` may
throw; the call itself still happens). -/
def cleanupStep (s : FetchSt) : FetchSt :=
  { s with listenerOn := false, handleClosed := true, closeCalls := s.closeCalls + 1 }

/-- The `abortHandler`: calls `input?.close()` and rejects the (already
resolved) promise.  It does not remove the listener, cancel the stream, or
otherwise stop future pulls. -/
def abortHandlerStep (s : FetchSt) : FetchSt :=
  { s with handleClosed := true, closeCalls := s.closeCalls + 1 }

/-- The events the consumer and the environment can produce against a live
fetch: a `pull` on the stream, a host-side `readChunk` failure during a pull,
delivery of the abort signal, and consumer cancellation of the stream. -/
inductive FetchEv where
  | pull
  | pullHostError
  | abortSignal
  | cancel
deriving DecidableEq, Repr

/-- One step of the fetch execution.  `none` means the event cannot occur in
this state (pulls and cancellation only target a readable stream; the abort
signal fires at most once).  A `pull` against an already-closed handle models
the host `readChunk` throwing on a closed stream. -/
def fetchStep (C : Nat) (s : FetchSt) : FetchEv → Option FetchSt
  | .pull =>
    if s.stream = .readable then
      if s.handleClosed then
        -- readChunk throws on the closed handle: catch → cleanup → controller.error
        let s := { s with
          readCalls := s.readCalls + 1
          readsAfterAbort := s.readsAfterAbort + (if s.aborted then 1 else 0) }
        some { cleanupStep s with stream := .errored }
      else
        match s.remaining with
        | [] =>
          -- readChunk returns null: controller.close(); cleanup()
          let s := { s with readCalls := s.readCalls + 1 }
          some { cleanupStep s with stream := .closed }
        | b :: bs =>
          let s := { s with readCalls := s.readCalls + 1 }
          let chunk := (b :: bs).take C
          if chunk.isEmpty then
            -- chunk.length === 0: controller.close(); cleanup()
            some { cleanupStep s with stream := .closed }
          else
            some { s with chunks := s.chunks ++ [chunk], remaining := (b :: bs).drop C }
    else none
  | .pullHostError =>
    -- readChunk throws for a host-side reason: catch → cleanup → controller.error
    if s.stream = .readable then
      let s := { s with
        readCalls := s.readCalls + 1
        readsAfterAbort := s.readsAfterAbort + (if s.aborted then 1 else 0) }
      some { cleanupStep s with stream := .errored }
    else none
  | .abortSignal =>
    if s.aborted then none
    else if s.listenerOn then some { abortHandlerStep s with aborted := true }
    else some { s with aborted := true }
  | .cancel =>
    -- ReadableStream.cancel on a readable stream: runs the cancel() callback
    -- (which calls cleanup()) and closes the stream.
    if s.stream = .readable then some { cleanupStep s with stream := .closed }
    else none

/-- Run a sequence of events from a state; `none` if any event is impossible. -/
def fetchRun (C : Nat) (s : FetchSt) : List FetchEv → Option FetchSt
  | [] => some s
  | e :: es =>
    match fetchStep C s e with
    | none => none
    | some s' => fetchRun C s' es

/-- The branch of `fetch` taken when the provided signal is already aborted at
setup: `abortHandler()` runs (closing the handle once) and the promise rejects
before any stream is created. -/
def fetchPreAborted (file : List Nat) : FetchSt :=
  { abortHandlerStep (initFetch file) with aborted := true, stream := .closed }

/-! ## Config (src/classes/Config.ts)

`Config.get`/`Config.set` delegate to lodash `_.get`/`_.set` on the in-memory
`config` document and persist via `FileSystem.write` on every `set`.

The JSON document model uses string-keyed objects throughout; the lodash
creation of arrays for integer-like path segments is elided (for `get`/`set`
the two are observationally equal: lodash converts keys with `toKey` either
way).  String keys are parsed to paths as lodash does for bracket-free keys:
a key without a `.` is used whole, a key with dots is split at every dot. -/

/-- A JSON document. -/
inductive Json where
  | null
  | bool (b : Bool)
  | num (n : Int)
  | str (s : String)
  | obj (kvs : List (String × Json))

/-- Whether a value is a JS object (lodash `isObject`). -/
def Json.isObj : Json → Bool
  | .obj _ => true
  | _ => false

/-- First-match association-list lookup (property read). -/
def kvLookup : List (String × Json) → String → Option Json
  | [], _ => none
  | (k', v) :: rest, k => if k' = k then some v else kvLookup rest k

/-- Property assignment (lodash `assignValue`): updates the first existing
entry for the key, or appends a new one. -/
def kvSet : List (String × Json) → String → Json → List (String × Json)
  | [], k, v => [(k, v)]
  | (k', w) :: rest, k, v =>
    if k' = k then (k, v) :: rest else (k', w) :: kvSet rest k v

/-- lodash `baseSet` after the root `isObject` guard: walks the path,
replacing non-object intermediates with fresh empty objects, and assigns the
value at the last key. -/
def baseSetGo : Json → List String → Json → Json
  | j, [], _ => j
  | j, k :: rest, v =>
    match j with
    | .obj kvs =>
      match rest with
      | [] => .obj (kvSet kvs k v)
      | _ :: _ =>
        let child :=
          match kvLookup kvs k with
          | some c => if c.isObj then c else Json.obj []
          | none => Json.obj []
        .obj (kvSet kvs k (baseSetGo child rest v))
    | _ => j

/-- lodash `baseGet`: walks the path; any miss or non-object intermediate
yields `undefined` (`none`). -/
def baseGetGo : Json → List String → Option Json
  | j, [] => some j
  | j, k :: rest =>
    match j with
    | .obj kvs =>
      match kvLookup kvs k with
      | none => none
      | some c => baseGetGo c rest
    | _ => none

/-- lodash `_.set(object, path, value)` for an already-parsed path: no-op on
an empty path or a non-object root. -/
def lodashSet (j : Json) (p : List String) (v : Json) : Json :=
  match p with
  | [] => j
  | _ :: _ => if j.isObj then baseSetGo j p v else j

/-- lodash `_.get(object, path, default)` for an already-parsed path: the
default replaces an `undefined` result (and an empty path yields
`undefined`). -/
def lodashGet (j : Json) (p : List String) (default : Json) : Json :=
  match p with
  | [] => default
  | _ :: _ => (baseGetGo j p).getD default

/-- lodash `castPath` for a string key on a plain object: a key without dots
(or brackets, which are not modelled) is a simple key used whole; otherwise
`stringToPath` splits it at every dot. -/
def lodashToPath (key : String) : List String :=
  if key.data.contains '.' then (splitOnChar '.' key.data).map String.mk
  else [key]

/-- Serialization performed by `JSON.stringify(config, null, 2)`; the
pretty-printing whitespace and string escaping are elided (serialization is
compact and strings are emitted verbatim). -/
def serializeJson : Json → String
  | .null => "null"
  | .bool b => cond b "true" "false"
  | .num n => toString n
  | .str s => "\"" ++ s ++ "\""
  | .obj kvs =>
    "\x7b" ++ String.intercalate ","
      (kvs.attach.map fun kv =>
        "\"" ++ kv.1.1 ++ "\":" ++ serializeJson kv.1.2) ++ "\x7d"
termination_by j => sizeOf j
decreasing_by
  have h1 := List.sizeOf_lt_of_mem kv.2
  obtain ⟨⟨a, b⟩, hmem⟩ := kv
  simp only [Json.obj.sizeOf_spec, Prod.mk.sizeOf_spec] at *
  omega

/-- The host filesystem as a path-to-content map. -/
def Disk : Type := List (String × String)

/-- Overwrite (or create) a file on the host filesystem. -/
def diskWrite : Disk → String → String → Disk
  | [], p, c => [(p, c)]
  | (p', c') :: rest, p, c =>
    if p' = p then (p, c) :: rest else (p', c') :: diskWrite rest p c

/-- Read a file from the host filesystem. -/
def diskRead : Disk → String → Option String
  | [], _ => none
  | (p', c') :: rest, p => if p' = p then some c' else diskRead rest p

/-- `FileSystem.write(path, data)`: forwards to the host write when the
context is MMRL (the host write replaces the content of the file), and otherwise
does nothing. -/
def fsWrite (isMMRL : Bool) (disk : Disk) (path data : String) : Disk :=
  if isMMRL then diskWrite disk path data else disk

/-- The in-memory state of a `Config` instance: the loaded document and the
per-scope file path `/data/adb/.config/<scope>/config.json`. -/
structure ConfigState where
  config : Json
  filePath : String

/-- The config file path for a scope, as resolved in the constructor. -/
def configFilePath (scope : String) : String :=
  "/data/adb/.config/" ++ scope ++ "/config.json"

namespace Config

/-- `Config.get(key, def)`: `_.get(this.config, key, def)`. -/
def get (st : ConfigState) (key : String) (defVal : Json) : Json :=
  lodashGet st.config (lodashToPath key) defVal

/-- `Config.set(key, value)`: `_.set(this.config, key, value)` followed by
`_saveConfig()`, which writes `JSON.stringify(this.config, null, 2)` to the
config file through `FileSystem.write` (a no-op when the context is not
MMRL). -/
def set (st : ConfigState) (isMMRL : Bool) (disk : Disk) (key : String) (value : Json) :
    ConfigState × Disk :=
  let cfg := lodashSet st.config (lodashToPath key) value
  (⟨cfg, st.filePath⟩, fsWrite isMMRL disk st.filePath (serializeJson cfg))

end Config

/-! ## Toast (classes/Toast.ts) -/

/-- The environment seen by a `Toast` instance: the MMRL check, the
host-reported version code, and the `toastBuilder` captured at construction
(absent when `window.mmrl` was absent). -/
structure ToastEnv where
  isMMRL : Bool
  versionCode : Int
  hasBuilder : Bool
deriving DecidableEq, Repr

namespace Toast

/-- `Toast.LENGTH_SHORT`. -/
def LENGTH_SHORT : Int := 0

/-- `Toast.LENGTH_LONG`. -/
def LENGTH_LONG : Int := 1

/-- The Toast version threshold `requireVersion`. -/
def requireVersion : Int := 33049

/-- The common guard sequence of every Toast method: silently return when the
context is not MMRL or no builder was captured; no-op (with the spec-modelled
warning) below the version threshold.  Returns `none` when the method body
should not run, together with the warnings produced. -/
def gate (env : ToastEnv) : Option (List String) × List String :=
  if env.isMMRL = false then (none, [])
  else if env.hasBuilder = false then (none, [])
  else
    let hv := hasRequiredVersion env.versionCode requireVersion
    if hv.1 = false then (none, hv.2)
    else (some hv.2, hv.2)

/-- `Toast.setText(text)`: after the guards, throws a `TypeError` unless the
argument is a string, otherwise forwards to `toastBuilder.setText`. -/
def setText (env : ToastEnv) (text : JSValue) : Except JsErr (Eff Unit) :=
  if env.isMMRL = false then .ok ⟨(), [], []⟩
  else if env.hasBuilder = false then .ok ⟨(), [], []⟩
  else
    let hv := hasRequiredVersion env.versionCode requireVersion
    if hv.1 = false then .ok ⟨(), hv.2, []⟩
    else
      match text with
      | .str _ => .ok ⟨(), hv.2, ["setText"]⟩
      | _ => .error (.typeError "Text must be a string")

/-- `Toast.setDuration(duration)`: after the guards, throws a `TypeError` for
a non-number, an `Error` for a number other than `LENGTH_SHORT`/`LENGTH_LONG`,
and otherwise forwards to `toastBuilder.setDuration`. -/
def setDuration (env : ToastEnv) (duration : JSValue) : Except JsErr (Eff Unit) :=
  if env.isMMRL = false then .ok ⟨(), [], []⟩
  else if env.hasBuilder = false then .ok ⟨(), [], []⟩
  else
    let hv := hasRequiredVersion env.versionCode requireVersion
    if hv.1 = false then .ok ⟨(), hv.2, []⟩
    else
      match duration with
      | .num n =>
        if n ≠ LENGTH_SHORT ∧ n ≠ LENGTH_LONG then .error (.error "Invalid duration")
        else .ok ⟨(), hv.2, ["setDuration"]⟩
      | _ => .error (.typeError "Duration must be a number")

/-- `Toast.setGravity(gravity, xOffset, yOffset)`: after the guards, throws a
`TypeError` at the first non-number among the three arguments, otherwise
forwards to `toastBuilder.setGravity`. -/
def setGravity (env : ToastEnv) (gravity xOffset yOffset : JSValue) :
    Except JsErr (Eff Unit) :=
  if env.isMMRL = false then .ok ⟨(), [], []⟩
  else if env.hasBuilder = false then .ok ⟨(), [], []⟩
  else
    let hv := hasRequiredVersion env.versionCode requireVersion
    if hv.1 = false then .ok ⟨(), hv.2, []⟩
    else
      match gravity with
      | .num _ =>
        match xOffset with
        | .num _ =>
          match yOffset with
          | .num _ => .ok ⟨(), hv.2, ["setGravity"]⟩
          | _ => .error (.typeError "Y offset must be a number")
        | _ => .error (.typeError "X offset must be a number")
      | _ => .error (.typeError "Gravity must be a number")

/-- `Toast.show()`: silently returns when the context is not MMRL or no
builder exists, no-ops below the version threshold (the spec-modelled
`hasRequiredVersion` logs the warning), otherwise forwards to
`toastBuilder.show()`. -/
def showToast (env : ToastEnv) : Eff Unit :=
  if env.isMMRL = false then ⟨(), [], []⟩
  else if env.hasBuilder = false then ⟨(), [], []⟩
  else
    let hv := hasRequiredVersion env.versionCode requireVersion
    if hv.1 = false then ⟨(), hv.2, []⟩
    else ⟨(), hv.2, ["show"]⟩

end Toast

/-! ## Helper lemmas -/

theorem AccessorScope.replaceDashDot_eq_map (cs : List Char) :
    AccessorScope.replaceDashDot cs
      = cs.map (fun c => if c = '-' ∨ c = '.' then '_' else c) := by
  induction cs with
  | nil => rfl
  | cons c cs ih => simp [AccessorScope.replaceDashDot, ih]

theorem AccessorScope.sanitizeScope_data (s : String) :
    (AccessorScope.sanitizeScope s).data
      = s.data.map (fun c => if c = '-' ∨ c = '.' then '_' else c) :=
  AccessorScope.replaceDashDot_eq_map s.data

theorem AccessorScope.sanitizedModIdWithFile_of_cons (s : String) (a b : Char)
    (rest : List Char) (hd : (AccessorScope.sanitizeScope s).data = a :: b :: rest) :
    AccessorScope.sanitizedModIdWithFile s = String.mk [a.toUpper, b] ++ "File" := by
  simp [AccessorScope.sanitizedModIdWithFile, hd]

/-! ## C9 and C10 -/

/-- C9: for every scope string the derived global-object name is a
deterministic function of the scope (`parseScope` looks up the sanitized
scope behind a dollar sign), and sanitization replaces every `-` and every `.` character
with `_`, leaving all other characters (and their positions) unchanged. -/
theorem c9_sanitize_scope (s : String) :
    AccessorScope.parseScopeName s = "$" ++ AccessorScope.sanitizeScope s ∧
    (AccessorScope.sanitizeScope s).data
      = s.data.map (fun c => if c = '-' ∨ c = '.' then '_' else c) :=
  ⟨rfl, AccessorScope.sanitizeScope_data s⟩

/-- C10: for scopes of length at least 2, the file-interface global name is
built from only the first two characters of the sanitized scope (first
uppercased, second kept) followed by `"File"`, so any two scopes sharing their
first two sanitized characters resolve to the same file-interface name. -/
theorem c10_file_scope_two_chars (s t : String)
    (hs : 2 ≤ s.length) (ht : 2 ≤ t.length)
    (hpre : (AccessorScope.sanitizeScope s).data.take 2
          = (AccessorScope.sanitizeScope t).data.take 2) :
    AccessorScope.sanitizedModIdWithFile s
      = String.mk (((AccessorScope.sanitizeScope s).data.take 2).modifyHead Char.toUpper)
        ++ "File" ∧
    AccessorScope.parseFileScopeName s = AccessorScope.parseFileScopeName t := by
  have hls : 2 ≤ (AccessorScope.sanitizeScope s).data.length := by
    have h1 : (AccessorScope.sanitizeScope s).data.length = s.data.length := by
      rw [AccessorScope.sanitizeScope_data]; exact List.length_map _ _
    have h2 : s.length = s.data.length := rfl
    omega
  have hlt : 2 ≤ (AccessorScope.sanitizeScope t).data.length := by
    have h1 : (AccessorScope.sanitizeScope t).data.length = t.data.length := by
      rw [AccessorScope.sanitizeScope_data]; exact List.length_map _ _
    have h2 : t.length = t.data.length := rfl
    omega
  obtain ⟨a, b, rest, hd⟩ :
      ∃ a b rest, (AccessorScope.sanitizeScope s).data = a :: b :: rest := by
    match hds : (AccessorScope.sanitizeScope s).data with
    | [] => rw [hds] at hls; simp at hls
    | [x] => rw [hds] at hls; simp at hls
    | x :: y :: r => exact ⟨x, y, r, rfl⟩
  obtain ⟨a', b', rest', hd'⟩ :
      ∃ a b rest, (AccessorScope.sanitizeScope t).data = a :: b :: rest := by
    match hdt : (AccessorScope.sanitizeScope t).data with
    | [] => rw [hdt] at hlt; simp at hlt
    | [x] => rw [hdt] at hlt; simp at hlt
    | x :: y :: r => exact ⟨x, y, r, rfl⟩
  have hab : a = a' ∧ b = b' := by
    rw [hd, hd'] at hpre
    simp [List.take] at hpre
    exact hpre
  constructor
  · rw [AccessorScope.sanitizedModIdWithFile_of_cons s a b rest hd, hd]
    simp [List.modifyHead]
  · unfold AccessorScope.parseFileScopeName
    rw [AccessorScope.sanitizedModIdWithFile_of_cons s a b rest hd,
      AccessorScope.sanitizedModIdWithFile_of_cons t a' b' rest' hd',
      hab.1, hab.2]

/-- Witness for C10 at concrete scopes sharing their first two sanitized
characters. -/
theorem c10_file_scope_two_chars_witness :
    AccessorScope.sanitizedModIdWithFile "net-switch"
      = String.mk (((AccessorScope.sanitizeScope "net-switch").data.take 2).modifyHead
          Char.toUpper) ++ "File" ∧
    AccessorScope.parseFileScopeName "net-switch"
      = AccessorScope.parseFileScopeName "nemo" :=
  c10_file_scope_two_chars "net-switch" "nemo" (by decide) (by decide) (by decide)

/-! ## C1 -/

/-- C1 counterexample: with the host absent (the context is not recognized as
MMRL), the boolean property check `MMRLInterface.hasAccessToAdvancedKernelSuAPI`
returns `true`, not the claimed `false` — though it still performs no host
call. -/
theorem c1_counterexample :
    (MMRLInterface.hasAccessToAdvancedKernelSuAPI
      ⟨false, 0, ⟨false, false, 0, 0⟩⟩).result ≠ false ∧
    (MMRLInterface.hasAccessToAdvancedKernelSuAPI
      ⟨false, 0, ⟨false, false, 0, 0⟩⟩).hostCalls = [] := by
  constructor
  · intro h
    simp [MMRLInterface.hasAccessToAdvancedKernelSuAPI] at h
  · rfl

/-- C1 (amended): when the host object is absent (the context is not
recognized as MMRL), every accessor read returns its documented default —
file read `null`, size and stat `0`, existence and boolean property checks
`false` with the single exception of `hasAccessToAdvancedKernelSuAPI`, which
returns `true`, and numeric metadata the `-1`/`0` sentinel — and performs no
call on the host interface object. -/
theorem c1_absent_host_defaults (fsEnv : FsEnv) (menv : MMRLEnv) (venv : VersionEnv)
    (path : String) (b r t : Bool)
    (hf : fsEnv.isMMRL = false) (hm : menv.isMMRL = false) (hv : venv.isMMRL = false) :
    FileSystem.read fsEnv path b = ⟨.ok none, [], []⟩ ∧
    FileSystem.size fsEnv path r = ⟨.ok 0, [], []⟩ ∧
    FileSystem.stat fsEnv path t = ⟨.ok 0, [], []⟩ ∧
    FileSystem.fsExists fsEnv path = ⟨.ok false, [], []⟩ ∧
    MMRLInterface.hasAccessToFileSystem menv = ⟨false, [], []⟩ ∧
    MMRLInterface.hasAccessToAdvancedKernelSuAPI menv = ⟨true, [], []⟩ ∧
    MMRLInterface.windowTopInset menv = ⟨0, [], []⟩ ∧
    MMRLInterface.sdk menv = ⟨-1, [], []⟩ ∧
    VersionInterface.versionCode venv = ⟨-1, [], []⟩ ∧
    VersionInterface.versionName venv = ⟨.num (-1), [], []⟩ ∧
    VersionInterface.isDevVersion venv = ⟨false, [], []⟩ ∧
    VersionInterface.rootVersionCode venv = ⟨-1, [], []⟩ := by
  refine ⟨?_, ?_, ?_, ?_, ?_, ?_, ?_, ?_, ?_, ?_, ?_, ?_⟩ <;>
    simp [FileSystem.read, FileSystem.size, FileSystem.stat, FileSystem.fsExists,
      MMRLInterface.hasAccessToFileSystem, MMRLInterface.hasAccessToAdvancedKernelSuAPI,
      MMRLInterface.windowTopInset, MMRLInterface.sdk,
      VersionInterface.versionCode, VersionInterface.versionName,
      VersionInterface.isDevVersion, VersionInterface.rootVersionCode, hf, hm, hv]

/-- Witness for C1 (amended) at a concrete absent-host environment. -/
theorem c1_absent_host_defaults_witness :
    FileSystem.read
      ⟨false, 0, ⟨fun _ _ => .ok (some "x"), fun _ _ => .ok 7, fun _ _ => .ok 7,
        fun _ => .ok true, fun _ => .ok true⟩⟩ "/f" false = ⟨.ok none, [], []⟩ ∧
    FileSystem.size
      ⟨false, 0, ⟨fun _ _ => .ok (some "x"), fun _ _ => .ok 7, fun _ _ => .ok 7,
        fun _ => .ok true, fun _ => .ok true⟩⟩ "/f" false = ⟨.ok 0, [], []⟩ ∧
    FileSystem.stat
      ⟨false, 0, ⟨fun _ _ => .ok (some "x"), fun _ _ => .ok 7, fun _ _ => .ok 7,
        fun _ => .ok true, fun _ => .ok true⟩⟩ "/f" false = ⟨.ok 0, [], []⟩ ∧
    FileSystem.fsExists
      ⟨false, 0, ⟨fun _ _ => .ok (some "x"), fun _ _ => .ok 7, fun _ _ => .ok 7,
        fun _ => .ok true, fun _ => .ok true⟩⟩ "/f" = ⟨.ok false, [], []⟩ ∧
    MMRLInterface.hasAccessToFileSystem ⟨false, 0, ⟨true, true, 9, 30⟩⟩ = ⟨false, [], []⟩ ∧
    MMRLInterface.hasAccessToAdvancedKernelSuAPI ⟨false, 0, ⟨true, true, 9, 30⟩⟩
      = ⟨true, [], []⟩ ∧
    MMRLInterface.windowTopInset ⟨false, 0, ⟨true, true, 9, 30⟩⟩ = ⟨0, [], []⟩ ∧
    MMRLInterface.sdk ⟨false, 0, ⟨true, true, 9, 30⟩⟩ = ⟨-1, [], []⟩ ∧
    VersionInterface.versionCode ⟨false, some ⟨⟨5, "v", "id", true⟩, ⟨"p", 6, "r"⟩⟩⟩
      = ⟨-1, [], []⟩ ∧
    VersionInterface.versionName ⟨false, some ⟨⟨5, "v", "id", true⟩, ⟨"p", 6, "r"⟩⟩⟩
      = ⟨.num (-1), [], []⟩ ∧
    VersionInterface.isDevVersion ⟨false, some ⟨⟨5, "v", "id", true⟩, ⟨"p", 6, "r"⟩⟩⟩
      = ⟨false, [], []⟩ ∧
    VersionInterface.rootVersionCode ⟨false, some ⟨⟨5, "v", "id", true⟩, ⟨"p", 6, "r"⟩⟩⟩
      = ⟨-1, [], []⟩ :=
  c1_absent_host_defaults
    ⟨false, 0, ⟨fun _ _ => .ok (some "x"), fun _ _ => .ok 7, fun _ _ => .ok 7,
      fun _ => .ok true, fun _ => .ok true⟩⟩
    ⟨false, 0, ⟨true, true, 9, 30⟩⟩
    ⟨false, some ⟨⟨5, "v", "id", true⟩, ⟨"p", 6, "r"⟩⟩⟩
    "/f" false false false rfl rfl rfl

/-! ## C4 -/

/-- C4 counterexample: `FileSystem.read` performs its host call with no
try/catch, so a host exception propagates to the caller instead of being
swallowed into a fallback value. -/
theorem c4_counterexample :
    (FileSystem.read
      ⟨true, 0, ⟨fun _ _ => .error "boom", fun _ _ => .ok 0, fun _ _ => .ok 0,
        fun _ => .ok false, fun _ => .ok false⟩⟩ "/f" false).result
      = .error "boom" := rfl

/-- C4 (amended): the `SuFile` accessor methods route every host call through
`_try`, which swallows a thrown exception, logs the error message of the method and
returns the documented fallback (`null`, `false`, `0`, `"[]"`); the
`FileSystem` accessor methods have no such catch — below their `isMMRL` guard
they forward the host call and let its exception propagate to the caller. -/
theorem c4_sufile_swallows (T : Type) (fallback v : T) (e msg : String)
    (iface : SuFile.Iface) (fsEnv : FsEnv) (path data delim : String)
    (recursive bytes : Bool)
    (hread : iface.read path = .error e)
    (hwrite : iface.write path data = .error e)
    (hsize : iface.size path recursive = .error e)
    (hexists : iface.fsExists path = .error e)
    (hlist : iface.list path delim = .error e)
    (hfs : fsEnv.isMMRL = true) :
    SuFile.tryCall fallback (.error e) msg = (fallback, [msg]) ∧
    SuFile.tryCall fallback (.ok v) msg = (v, []) ∧
    SuFile.read iface path = (none, ["Error while reading from " ++ path]) ∧
    SuFile.write iface path data = (false, ["Error while writing to " ++ path]) ∧
    SuFile.size iface path recursive = (0, ["Error while getting size of " ++ path]) ∧
    SuFile.fsExists iface path = (false, ["Error while checking existence of " ++ path]) ∧
    SuFile.list iface path delim = ("[]", ["Error while listing " ++ path]) ∧
    (FileSystem.read fsEnv path bytes).result = fsEnv.iface.read path bytes := by
  refine ⟨rfl, rfl, ?_, ?_, ?_, ?_, ?_, ?_⟩ <;>
    simp [SuFile.read, SuFile.write, SuFile.size, SuFile.fsExists, SuFile.list,
      SuFile.tryCall, FileSystem.read, hread, hwrite, hsize, hexists, hlist, hfs]

/-- Witness for C4 (amended) at a concrete throwing host interface. -/
theorem c4_sufile_swallows_witness :
    SuFile.tryCall false (.error "boom") "m" = (false, ["m"]) ∧
    SuFile.tryCall false (.ok true) "m" = (true, []) ∧
    SuFile.read
      ⟨fun _ => .error "boom", fun _ _ => .error "boom", fun _ _ => .error "boom",
        fun _ => .error "boom", fun _ _ => .error "boom"⟩ "/f"
      = (none, ["Error while reading from " ++ "/f"]) ∧
    SuFile.write
      ⟨fun _ => .error "boom", fun _ _ => .error "boom", fun _ _ => .error "boom",
        fun _ => .error "boom", fun _ _ => .error "boom"⟩ "/f" "d"
      = (false, ["Error while writing to " ++ "/f"]) ∧
    SuFile.size
      ⟨fun _ => .error "boom", fun _ _ => .error "boom", fun _ _ => .error "boom",
        fun _ => .error "boom", fun _ _ => .error "boom"⟩ "/f" false
      = (0, ["Error while getting size of " ++ "/f"]) ∧
    SuFile.fsExists
      ⟨fun _ => .error "boom", fun _ _ => .error "boom", fun _ _ => .error "boom",
        fun _ => .error "boom", fun _ _ => .error "boom"⟩ "/f"
      = (false, ["Error while checking existence of " ++ "/f"]) ∧
    SuFile.list
      ⟨fun _ => .error "boom", fun _ _ => .error "boom", fun _ _ => .error "boom",
        fun _ => .error "boom", fun _ _ => .error "boom"⟩ "/f" ","
      = ("[]", ["Error while listing " ++ "/f"]) ∧
    (FileSystem.read
      ⟨true, 0, ⟨fun _ _ => .error "boom", fun _ _ => .ok 0, fun _ _ => .ok 0,
        fun _ => .ok false, fun _ => .ok false⟩⟩ "/f" false).result
      = (FsEnv.iface
          ⟨true, 0, ⟨fun _ _ => .error "boom", fun _ _ => .ok 0, fun _ _ => .ok 0,
            fun _ => .ok false, fun _ => .ok false⟩⟩).read "/f" false :=
  c4_sufile_swallows Bool false true "boom" "m"
    ⟨fun _ => .error "boom", fun _ _ => .error "boom", fun _ _ => .error "boom",
      fun _ => .error "boom", fun _ _ => .error "boom"⟩
    ⟨true, 0, ⟨fun _ _ => .error "boom", fun _ _ => .ok 0, fun _ _ => .ok 0,
      fun _ => .ok false, fun _ => .ok false⟩⟩
    "/f" "d" "," false false rfl rfl rfl rfl rfl rfl

/-! ## C7 -/

/-- C7: stream-accessor construction raises immediately and uncaught: when no
global key matches the file-input-stream pattern, the constructor of
`SuFileInputStream` throws a `ReferenceError` and so does the one of `SuFile`;
when a key is found but the host `open` call returns nothing, the constructor
of `SuFileInputStream` throws an `Error`. -/
theorem c7_construction_raises (w : Window) (path : String) :
    ((∀ key ∈ w.keys, fileInputStreamKey key = false) →
      SuFileInputStream.construct w path
        = .error (.referenceError "Unable to find a interface SuFileInputStream") ∧
      SuFile.construct w path
        = .error (.referenceError "Unable to find a interface SuFile")) ∧
    (∀ k, w.keys.find? fileInputStreamKey = some k → w.openStream k path = none →
      SuFileInputStream.construct w path
        = .error (.error "Failed to open file input stream")) := by
  constructor
  · intro hnone
    have hfind : w.keys.find? fileInputStreamKey = none := by
      rw [List.find?_eq_none]
      intro x hx
      simp [hnone x hx]
    constructor
    · simp [SuFileInputStream.construct, hfind]
    · simp [SuFile.construct, hfind]
  · intro k hfind hopen
    simp [SuFileInputStream.construct, hfind, hopen]

/-- Witness for C7: a window with no matching global key (for the
`ReferenceError` cases), and one with a matching key whose host `open` returns
nothing (for the `Error` case). -/
theorem c7_construction_raises_witness :
    (SuFileInputStream.construct ⟨["foo"], fun _ _ => none⟩ "/f"
        = .error (.referenceError "Unable to find a interface SuFileInputStream") ∧
      SuFile.construct ⟨["foo"], fun _ _ => none⟩ "/f"
        = .error (.referenceError "Unable to find a interface SuFile")) ∧
    SuFileInputStream.construct ⟨["$KsFileInputStream"], fun _ _ => none⟩ "/f"
      = .error (.error "Failed to open file input stream") :=
  ⟨(c7_construction_raises ⟨["foo"], fun _ _ => none⟩ "/f").1
      (by intro key hk; simp at hk; subst hk; decide),
    (c7_construction_raises ⟨["$KsFileInputStream"], fun _ _ => none⟩ "/f").2
      "$KsFileInputStream" (by simp [List.find?]; decide) rfl⟩

/-! ## C8 -/

/-- C8: once the toast accessor is operational (MMRL context, builder
captured, version at least 33049), invalid arguments raise directly:
`setText` throws a `TypeError` for a non-string, `setDuration` a `TypeError`
for a non-number and an `Error` for a number other than `LENGTH_SHORT` (0) and
`LENGTH_LONG` (1), and `setGravity` a `TypeError` whenever any of its three
arguments is a non-number. -/
theorem c8_toast_validation (env : ToastEnv)
    (hm : env.isMMRL = true) (hb : env.hasBuilder = true)
    (hv : Toast.requireVersion ≤ env.versionCode) :
    (∀ t : JSValue, t.isStr = false →
      Toast.setText env t = .error (.typeError "Text must be a string")) ∧
    (∀ d : JSValue, d.isNum = false →
      Toast.setDuration env d = .error (.typeError "Duration must be a number")) ∧
    (∀ n : Int, n ≠ Toast.LENGTH_SHORT → n ≠ Toast.LENGTH_LONG →
      Toast.setDuration env (.num n) = .error (.error "Invalid duration")) ∧
    (∀ g x y : JSValue, g.isNum = false ∨ x.isNum = false ∨ y.isNum = false →
      ∃ msg, Toast.setGravity env g x y = .error (.typeError msg)) := by
  have hver : hasRequiredVersion env.versionCode Toast.requireVersion = (true, []) := by
    simp [hasRequiredVersion]
    omega
  refine ⟨?_, ?_, ?_, ?_⟩
  · intro t hts
    cases t <;> simp_all [Toast.setText, hm, hb, hver, JSValue.isStr]
  · intro d hdn
    cases d <;> simp_all [Toast.setDuration, hm, hb, hver, JSValue.isNum]
  · intro n h0 h1
    simp [Toast.setDuration, hm, hb, hver, h0, h1]
  · intro g x y hor
    cases g with
    | num ng =>
      cases x with
      | num nx =>
        cases y with
        | num ny => simp [JSValue.isNum] at hor
        | _ =>
          exact ⟨"Y offset must be a number", by
            simp_all [Toast.setGravity, hm, hb, hver]⟩
      | _ =>
        exact ⟨"X offset must be a number", by
          simp_all [Toast.setGravity, hm, hb, hver]⟩
    | _ =>
      exact ⟨"Gravity must be a number", by
        simp_all [Toast.setGravity, hm, hb, hver]⟩

/-- Witness for C8 at a concrete operational toast environment. -/
theorem c8_toast_validation_witness :
    (∀ t : JSValue, t.isStr = false →
      Toast.setText ⟨true, 33050, true⟩ t
        = .error (.typeError "Text must be a string")) ∧
    (∀ d : JSValue, d.isNum = false →
      Toast.setDuration ⟨true, 33050, true⟩ d
        = .error (.typeError "Duration must be a number")) ∧
    (∀ n : Int, n ≠ Toast.LENGTH_SHORT → n ≠ Toast.LENGTH_LONG →
      Toast.setDuration ⟨true, 33050, true⟩ (.num n)
        = .error (.error "Invalid duration")) ∧
    (∀ g x y : JSValue, g.isNum = false ∨ x.isNum = false ∨ y.isNum = false →
      ∃ msg, Toast.setGravity ⟨true, 33050, true⟩ g x y = .error (.typeError msg)) :=
  c8_toast_validation ⟨true, 33050, true⟩ rfl rfl (by decide)

/-! ## C6 -/

/-- C6 (spec-modelled `hasRequiredVersion`): each version-gated method —
`FileSystem.isDirectory`, `Toast.show`, and
`MMRLInterface.requestAdvancedKernelSUAPI` — performs no host call and logs a
warning while returning its default when the host-reported version code is
below its threshold, and forwards the call to the host normally at or above
it. -/
theorem c6_version_gating (fsEnv : FsEnv) (tEnv : ToastEnv) (mEnv : MMRLEnv)
    (path : String)
    (hfs : fsEnv.isMMRL = true) (htm : tEnv.isMMRL = true) (htb : tEnv.hasBuilder = true)
    (hmm : mEnv.isMMRL = true) :
    (fsEnv.versionCode < FileSystem.advancedFsOperations →
      (FileSystem.isDirectory fsEnv path).result = .ok false ∧
      (FileSystem.isDirectory fsEnv path).hostCalls = [] ∧
      (FileSystem.isDirectory fsEnv path).warnings ≠ []) ∧
    (FileSystem.advancedFsOperations ≤ fsEnv.versionCode →
      FileSystem.isDirectory fsEnv path
        = ⟨fsEnv.iface.isDirectory path, [], ["isDirectory"]⟩) ∧
    (tEnv.versionCode < Toast.requireVersion →
      (Toast.showToast tEnv).hostCalls = [] ∧
      (Toast.showToast tEnv).warnings ≠ []) ∧
    (Toast.requireVersion ≤ tEnv.versionCode →
      Toast.showToast tEnv = ⟨(), [], ["show"]⟩) ∧
    (mEnv.versionCode < MMRLInterface.requireVersionNewAPIs →
      (MMRLInterface.requestAdvancedKernelSUAPI mEnv).hostCalls = [] ∧
      (MMRLInterface.requestAdvancedKernelSUAPI mEnv).warnings ≠ []) ∧
    (MMRLInterface.requireVersionNewAPIs ≤ mEnv.versionCode →
      MMRLInterface.requestAdvancedKernelSUAPI mEnv
        = ⟨(), [], ["requestAdvancedKernelSUAPI"]⟩) := by
  refine ⟨?_, ?_, ?_, ?_, ?_, ?_⟩
  · intro hlt
    simp [FileSystem.isDirectory, FileSystem.unsupportedWarning, hasRequiredVersion,
      hfs, hlt]
  · intro hge
    have : ¬ fsEnv.versionCode < FileSystem.advancedFsOperations := by omega
    simp [FileSystem.isDirectory, hasRequiredVersion, hfs, this]
  · intro hlt
    simp [Toast.showToast, hasRequiredVersion, htm, htb, hlt]
  · intro hge
    have : ¬ tEnv.versionCode < Toast.requireVersion := by omega
    simp [Toast.showToast, hasRequiredVersion, htm, htb, this]
  · intro hlt
    simp [MMRLInterface.requestAdvancedKernelSUAPI, hasRequiredVersion, hmm, hlt]
  · intro hge
    have : ¬ mEnv.versionCode < MMRLInterface.requireVersionNewAPIs := by omega
    simp [MMRLInterface.requestAdvancedKernelSUAPI, hasRequiredVersion, hmm, this]

/-- Witness for C6 at concrete environments on both sides of each
threshold. -/
theorem c6_version_gating_witness :
    ((33000 : Int) < FileSystem.advancedFsOperations →
      (FileSystem.isDirectory
        ⟨true, 33000, ⟨fun _ _ => .ok none, fun _ _ => .ok 0, fun _ _ => .ok 0,
          fun _ => .ok false, fun _ => .ok true⟩⟩ "/d").result = .ok false ∧
      (FileSystem.isDirectory
        ⟨true, 33000, ⟨fun _ _ => .ok none, fun _ _ => .ok 0, fun _ _ => .ok 0,
          fun _ => .ok false, fun _ => .ok true⟩⟩ "/d").hostCalls = [] ∧
      (FileSystem.isDirectory
        ⟨true, 33000, ⟨fun _ _ => .ok none, fun _ _ => .ok 0, fun _ _ => .ok 0,
          fun _ => .ok false, fun _ => .ok true⟩⟩ "/d").warnings ≠ []) ∧
    (FileSystem.advancedFsOperations ≤ (33000 : Int) →
      FileSystem.isDirectory
        ⟨true, 33000, ⟨fun _ _ => .ok none, fun _ _ => .ok 0, fun _ _ => .ok 0,
          fun _ => .ok false, fun _ => .ok true⟩⟩ "/d"
        = ⟨(FsIface.isDirectory
            ⟨fun _ _ => .ok none, fun _ _ => .ok 0, fun _ _ => .ok 0,
              fun _ => .ok false, fun _ => .ok true⟩) "/d", [], ["isDirectory"]⟩) ∧
    ((33000 : Int) < Toast.requireVersion →
      (Toast.showToast ⟨true, 33000, true⟩).hostCalls = [] ∧
      (Toast.showToast ⟨true, 33000, true⟩).warnings ≠ []) ∧
    (Toast.requireVersion ≤ (33000 : Int) →
      Toast.showToast ⟨true, 33000, true⟩ = ⟨(), [], ["show"]⟩) ∧
    ((33000 : Int) < MMRLInterface.requireVersionNewAPIs →
      (MMRLInterface.requestAdvancedKernelSUAPI ⟨true, 33000, ⟨true, true, 0, 30⟩⟩).hostCalls
        = [] ∧
      (MMRLInterface.requestAdvancedKernelSUAPI ⟨true, 33000, ⟨true, true, 0, 30⟩⟩).warnings
        ≠ []) ∧
    (MMRLInterface.requireVersionNewAPIs ≤ (33000 : Int) →
      MMRLInterface.requestAdvancedKernelSUAPI ⟨true, 33000, ⟨true, true, 0, 30⟩⟩
        = ⟨(), [], ["requestAdvancedKernelSUAPI"]⟩) :=
  c6_version_gating
    ⟨true, 33000, ⟨fun _ _ => .ok none, fun _ _ => .ok 0, fun _ _ => .ok 0,
      fun _ => .ok false, fun _ => .ok true⟩⟩
    ⟨true, 33000, true⟩ ⟨true, 33000, ⟨true, true, 0, 30⟩⟩ "/d" rfl rfl rfl rfl

/-! ## C2 -/

/-- C2: for a file of `N` bytes and chunk size `C > 0`, the stream produced by
`SuFile.fetch` enqueues exactly `ceil(N / C)` chunks whose concatenation is
the bytes of the file, assuming each host `readChunk` call returns the next
`min(C, remaining)` bytes and then `null` at end of stream. -/
theorem c2_stream_chunking (C : Nat) (file : List Nat) (hC : 0 < C) :
    (pullChunks C file).length = (file.length + C - 1) / C ∧
    (pullChunks C file).flatten = file := by
  obtain ⟨c, rfl⟩ : ∃ c, C = c + 1 := ⟨C - 1, by omega⟩
  clear hC
  suffices h : ∀ n (f : List Nat), f.length ≤ n →
      (pullChunks (c + 1) f).length = (f.length + (c + 1) - 1) / (c + 1) ∧
      (pullChunks (c + 1) f).flatten = f from h file.length file le_rfl
  intro n
  induction n with
  | zero =>
    intro f hf
    have hfe : f = [] := List.length_eq_zero.mp (Nat.le_zero.mp hf)
    subst hfe
    refine ⟨?_, by simp [pullChunks]⟩
    have hd : (0 + (c + 1) - 1) / (c + 1) = 0 := Nat.div_eq_of_lt (by omega)
    simp only [pullChunks, List.length_nil]
    omega
  | succ n ih =>
    intro f hf
    match f with
    | [] =>
      refine ⟨?_, by simp [pullChunks]⟩
      have hd : (0 + (c + 1) - 1) / (c + 1) = 0 := Nat.div_eq_of_lt (by omega)
      simp only [pullChunks, List.length_nil]
      omega
    | b :: bs =>
      have hdroplen : ((b :: bs).drop (c + 1)).length = bs.length - c := by
        simp [List.length_drop]
      have hdrop_le : ((b :: bs).drop (c + 1)).length ≤ n := by
        simp only [List.length_cons] at hf
        omega
      obtain ⟨ihlen, ihjoin⟩ := ih ((b :: bs).drop (c + 1)) hdrop_le
      rw [pullChunks]
      constructor
      · simp only [List.length_cons, ihlen, hdroplen]
        have hRHS : bs.length + 1 + (c + 1) - 1 = bs.length + (c + 1) := by omega
        rw [hRHS, Nat.add_div_right _ (by omega : 0 < c + 1)]
        by_cases hle : c ≤ bs.length
        · have h1 : bs.length - c + (c + 1) - 1 = bs.length := by omega
          rw [h1]
        · have h1 : bs.length - c + (c + 1) - 1 = c := by omega
          rw [h1, Nat.div_eq_of_lt (by omega), Nat.div_eq_of_lt (by omega)]
      · simp only [List.flatten_cons, ihjoin]
        exact List.take_append_drop (c + 1) (b :: bs)

/-- Witness for C2 at a concrete file and chunk size. -/
theorem c2_stream_chunking_witness :
    (pullChunks 2 [1, 2, 3, 4, 5]).length
      = (([1, 2, 3, 4, 5] : List Nat).length + 2 - 1) / 2 ∧
    (pullChunks 2 [1, 2, 3, 4, 5]).flatten = [1, 2, 3, 4, 5] :=
  c2_stream_chunking 2 [1, 2, 3, 4, 5] (by decide)

/-! ## C3 -/

/-- Step preservation for the close-once invariant: as long as no abort signal
is delivered, a live stream state has an open handle and zero `close()` calls,
and a finished (closed or errored) stream state has exactly one. -/
theorem fetchStep_good (C : Nat) (s s' : FetchSt) (e : FetchEv)
    (he : e ≠ .abortSignal)
    (hg : (s.stream = .readable ∧ s.closeCalls = 0 ∧ s.handleClosed = false)
        ∨ (s.stream ≠ .readable ∧ s.closeCalls = 1))
    (hstep : fetchStep C s e = some s') :
    (s'.stream = .readable ∧ s'.closeCalls = 0 ∧ s'.handleClosed = false)
    ∨ (s'.stream ≠ .readable ∧ s'.closeCalls = 1) := by
  cases e with
  | abortSignal => exact absurd rfl he
  | pull =>
    rcases hg with ⟨hst, hcc, hhc⟩ | ⟨hst, hcc⟩
    · simp only [fetchStep, hst, if_true, hhc, Bool.false_eq_true, if_false] at hstep
      cases hrem : s.remaining with
      | nil =>
        rw [hrem] at hstep
        simp only [Option.some.injEq] at hstep
        subst hstep
        right
        simp [cleanupStep, hcc]
      | cons b bs =>
        rw [hrem] at hstep
        by_cases hemp : ((b :: bs).take C).isEmpty
        · simp only [hemp, if_true, Option.some.injEq] at hstep
          subst hstep
          right
          simp [cleanupStep, hcc]
        · simp only [hemp, Bool.false_eq_true, if_false, Option.some.injEq] at hstep
          subst hstep
          left
          simp [hst, hcc, hhc]
    · simp only [fetchStep, if_neg hst] at hstep
      exact absurd hstep (by simp)
  | pullHostError =>
    rcases hg with ⟨hst, hcc, hhc⟩ | ⟨hst, hcc⟩
    · simp only [fetchStep, hst, if_true, Option.some.injEq] at hstep
      subst hstep
      right
      simp [cleanupStep, hcc]
    · simp only [fetchStep, if_neg hst] at hstep
      exact absurd hstep (by simp)
  | cancel =>
    rcases hg with ⟨hst, hcc, hhc⟩ | ⟨hst, hcc⟩
    · simp only [fetchStep, hst, if_true, Option.some.injEq] at hstep
      subst hstep
      right
      simp [cleanupStep, hcc]
    · simp only [fetchStep, if_neg hst] at hstep
      exact absurd hstep (by simp)

/-- Run preservation of the close-once invariant over abort-free event
sequences. -/
theorem fetchRun_good (C : Nat) (evs : List FetchEv) :
    ∀ s s' : FetchSt, FetchEv.abortSignal ∉ evs →
    ((s.stream = .readable ∧ s.closeCalls = 0 ∧ s.handleClosed = false)
      ∨ (s.stream ≠ .readable ∧ s.closeCalls = 1)) →
    fetchRun C s evs = some s' →
    (s'.stream = .readable ∧ s'.closeCalls = 0 ∧ s'.handleClosed = false)
    ∨ (s'.stream ≠ .readable ∧ s'.closeCalls = 1) := by
  induction evs with
  | nil =>
    intro s s' _ hg hrun
    simp only [fetchRun, Option.some.injEq] at hrun
    subst hrun
    exact hg
  | cons e es ih =>
    intro s s' hno hg hrun
    have hne : e ≠ .abortSignal := by
      intro h
      exact hno (h ▸ List.mem_cons_self e es)
    have hnes : FetchEv.abortSignal ∉ es := fun h => hno (List.mem_cons_of_mem e h)
    simp only [fetchRun] at hrun
    cases hstep : fetchStep C s e with
    | none => rw [hstep] at hrun; exact absurd hrun (by simp)
    | some s1 =>
      rw [hstep] at hrun
      exact ih s1 s' hnes (fetchStep_good C s s1 e hne hg hstep) hrun

/-- C3 counterexample: deliver the abort signal after `fetch` has produced its
`Response`, then let the consumer pull once more.  The abort handler closes
the handle but does not stop the stream: the pull still calls `readChunk` on
the closed handle (one read after abort) and its cleanup closes the handle a
second time — `close()` runs twice, refuting "exactly once" and "no further
pull reads a chunk". -/
theorem c3_counterexample :
    (fetchRun 1 (initFetch [0]) [.abortSignal, .pull]).map
      (fun s => (s.closeCalls, s.readsAfterAbort)) = some (2, 1) := rfl

/-- C3 (amended): in every abort-free execution — normal completion, a
chunk-read error, or consumer cancellation — `close` on the handle is invoked
exactly once when the stream finishes (and never before); if the signal is
already aborted at setup, `close` is likewise invoked exactly once.  An abort
delivered after setup, however, closes the handle without stopping the
stream, so a later pull touches the handle again (see the counterexample). -/
theorem c3_close_once (C : Nat) (file : List Nat) (evs : List FetchEv) (s' : FetchSt)
    (hno : FetchEv.abortSignal ∉ evs)
    (hrun : fetchRun C (initFetch file) evs = some s') :
    s'.closeCalls ≤ 1 ∧
    (s'.stream ≠ .readable → s'.closeCalls = 1) ∧
    (fetchPreAborted file).closeCalls = 1 := by
  have hg := fetchRun_good C evs (initFetch file) s' hno
    (Or.inl ⟨rfl, rfl, rfl⟩) hrun
  rcases hg with ⟨hst, hcc, _⟩ | ⟨hst, hcc⟩
  · exact ⟨by omega, fun h => absurd hst h, rfl⟩
  · exact ⟨by omega, fun _ => hcc, rfl⟩

/-- Witness for C3 (amended): a complete abort-free run that pulls a one-byte
file to end of stream. -/
theorem c3_close_once_witness :
    FetchEv.abortSignal ∉ [FetchEv.pull, FetchEv.pull] ∧
    ∃ s', fetchRun 1 (initFetch [0]) [FetchEv.pull, FetchEv.pull] = some s' ∧
      s'.closeCalls ≤ 1 ∧
      (s'.stream ≠ .readable → s'.closeCalls = 1) ∧
      (fetchPreAborted [0]).closeCalls = 1 := by
  refine ⟨by decide, ?_⟩
  cases hrun : fetchRun 1 (initFetch [0]) [FetchEv.pull, FetchEv.pull] with
  | none => exact absurd hrun (by decide)
  | some s' =>
    exact ⟨s', rfl, c3_close_once 1 [0] [FetchEv.pull, FetchEv.pull] s' (by decide) hrun⟩

/-! ## C5 -/

theorem Json.isObj_iff (j : Json) : j.isObj = true ↔ ∃ kvs, j = .obj kvs := by
  cases j <;> simp [Json.isObj]

theorem kvLookup_kvSet (kvs : List (String × Json)) (k : String) (v : Json) :
    kvLookup (kvSet kvs k v) k = some v := by
  induction kvs with
  | nil => simp [kvSet, kvLookup]
  | cons kv rest ih =>
    obtain ⟨k', w⟩ := kv
    by_cases h : k' = k
    · simp [kvSet, h, kvLookup]
    · simp [kvSet, h, kvLookup, ih]

/-- Set-then-get round trip of the lodash model below the root guard: writing
a value at a nonempty path through an object root makes reading that path
return exactly that value. -/
theorem baseSet_baseGet (v : Json) :
    ∀ p : List String, p ≠ [] → ∀ j : Json, j.isObj = true →
      baseGetGo (baseSetGo j p v) p = some v := by
  intro p
  induction p with
  | nil => intro h; exact absurd rfl h
  | cons k rest ih =>
    intro _ j hj
    obtain ⟨kvs, rfl⟩ := (Json.isObj_iff j).mp hj
    cases rest with
    | nil => simp [baseSetGo, baseGetGo, kvLookup_kvSet]
    | cons r rs =>
      simp only [baseSetGo, baseGetGo, kvLookup_kvSet]
      apply ih (by simp)
      cases hlk : kvLookup kvs k with
      | none => rfl
      | some c => cases c <;> simp [Json.isObj]

theorem splitOnChar_ne_nil (sep : Char) (cs : List Char) : splitOnChar sep cs ≠ [] := by
  cases cs with
  | nil => simp [splitOnChar]
  | cons c rest =>
    by_cases h : c = sep
    · simp [splitOnChar, h]
    · simp only [splitOnChar, if_neg h]
      cases splitOnChar sep rest <;> simp

theorem lodashToPath_ne_nil (key : String) : lodashToPath key ≠ [] := by
  unfold lodashToPath
  split
  · intro hmap
    exact splitOnChar_ne_nil '.' key.data (List.map_eq_nil_iff.mp hmap)
  · simp

theorem diskRead_diskWrite (d : Disk) (p c : String) :
    diskRead (diskWrite d p c) p = some c := by
  induction d with
  | nil => simp [diskWrite, diskRead]
  | cons pc rest ih =>
    obtain ⟨p', c'⟩ := pc
    by_cases h : p' = p
    · simp [diskWrite, h, diskRead]
    · simp [diskWrite, h, diskRead, ih]

/-- C5: with the loaded config document a JSON object and the host filesystem
write operational (MMRL context), `Config.set(k, v)` followed by
`Config.get(k, d)` returns `v` for every key `k`, value `v` and default `d`,
and after `set` returns, the per-scope config file on disk holds the
serialization of the updated document. -/
theorem c5_config_set_get (st : ConfigState) (disk : Disk) (key : String)
    (v defVal : Json) (hroot : st.config.isObj = true) :
    Config.get (Config.set st true disk key v).1 key defVal = v ∧
    diskRead (Config.set st true disk key v).2 st.filePath
      = some (serializeJson (Config.set st true disk key v).1.config) := by
  constructor
  · show lodashGet (lodashSet st.config (lodashToPath key) v) (lodashToPath key) defVal = v
    cases hp : lodashToPath key with
    | nil => exact absurd hp (lodashToPath_ne_nil key)
    | cons k rest =>
      simp only [lodashGet, lodashSet, hroot, if_true]
      rw [baseSet_baseGet v (k :: rest) (by simp) st.config hroot]
      rfl
  · show diskRead (fsWrite true disk st.filePath
        (serializeJson (lodashSet st.config (lodashToPath key) v))) st.filePath = _
    show diskRead (diskWrite disk st.filePath
        (serializeJson (lodashSet st.config (lodashToPath key) v))) st.filePath = _
    exact diskRead_diskWrite disk st.filePath _

/-- Witness for C5 at a concrete empty config document and dotted key. -/
theorem c5_config_set_get_witness :
    Config.get (Config.set ⟨Json.obj [], configFilePath "scope"⟩ true [] "a.b"
      (Json.num 5)).1 "a.b" Json.null = Json.num 5 ∧
    diskRead (Config.set ⟨Json.obj [], configFilePath "scope"⟩ true [] "a.b"
        (Json.num 5)).2
      (ConfigState.filePath ⟨Json.obj [], configFilePath "scope"⟩)
      = some (serializeJson
          (Config.set ⟨Json.obj [], configFilePath "scope"⟩ true [] "a.b"
            (Json.num 5)).1.config) :=
  c5_config_set_get ⟨Json.obj [], configFilePath "scope"⟩ [] "a.b" (Json.num 5)
    Json.null rfl
